import Mathlib

/-!
Verification of the animoji frame-generation pipeline (src/main.go).

Shallow embedding conventions:
* A pixel is four 8-bit channels stored as naturals; the Go 16-bit channel
  reads `r >> 8` recover exactly the stored 8-bit value for RGBA sources,
  so pixels are modelled at 8 bits directly.
* An `Image` is a width, a height and a total pixel function; only the
  values at coordinates `x < width, y < height` are meaningful (Go images
  have no pixels outside their bounds).  All images produced by the
  program have `Bounds().Min = (0,0)` (every destination is built with
  `image.NewRGBA` over such bounds), so coordinates are naturals.
* Go `float64` arithmetic on rationally-defined quantities is modelled
  exactly over `ℚ`.  The transcendental routines (`math.Sin`, `math.Cos`,
  `math.Atan2`, `math.Sqrt`, `math.Pi`) are abstracted as a `FloatOracle`
  structure: theorems about the sampling policy quantify over every
  oracle, hence over every value the float routines could return.
* `goInt q` models the Go `int(f)` conversion (truncation toward zero),
  `goMod` models `math.Mod`, `goRound` models `math.Round` (half away
  from zero).
-/

namespace Animoji

/-- One RGBA pixel, 8 bits per channel. -/
structure Pix where
  r : ℕ
  g : ℕ
  b : ℕ
  a : ℕ
deriving DecidableEq, Repr

/-- The zero value of a freshly allocated `image.NewRGBA` buffer:
fully transparent black. -/
def Pix.zero : Pix := ⟨0, 0, 0, 0⟩

/-- An image: a `width × height` grid of pixels with origin `(0,0)`. -/
structure Image where
  width : ℕ
  height : ℕ
  pix : ℕ → ℕ → Pix

/-- Go `int(f)` conversion of a float value: truncation toward zero. -/
def goInt (q : ℚ) : ℤ := if 0 ≤ q then ⌊q⌋ else -⌊-q⌋

/-- Go `math.Mod x y`: the remainder `x - y*Trunc(x/y)`, sign of `x`.
(`math.Mod x 0` is NaN in Go; the program never divides by a zero
modulus on any path used by a theorem below.) -/
def goMod (x y : ℚ) : ℚ := x - y * goInt (x / y)

/-- Go `math.Round`: round to nearest integer, half away from zero. -/
def goRound (q : ℚ) : ℤ := if 0 ≤ q then ⌊q + 1/2⌋ else -⌊-q + 1/2⌋

/-- The float64 transcendental routines used by the effects, abstracted:
any function the Go runtime computes is one instantiation. -/
structure FloatOracle where
  sin : ℚ → ℚ
  cos : ℚ → ℚ
  atan2 : ℚ → ℚ → ℚ
  sqrt : ℚ → ℚ
  pi : ℚ

/-- `draw.Draw(result, result.Bounds(), img, bounds.Min, draw.Src)`:
a fresh destination filled with a pixel-for-pixel copy of `img`. -/
def copyImage (src : Image) : Image :=
  { width := src.width, height := src.height, pix := fun x y => src.pix x y }

/-- `rgbToHSV` (src/main.go:464-499): standard max/min/delta formula over
channel values scaled to `[0,1]`; hue in `[0,360)`. -/
def rgbToHSV (r g b : ℕ) : ℚ × ℚ × ℚ :=
  let rf : ℚ := (r : ℚ) / 255
  let gf : ℚ := (g : ℚ) / 255
  let bf : ℚ := (b : ℚ) / 255
  let mx := max (max rf gf) bf
  let mn := min (min rf gf) bf
  let delta := mx - mn
  let v := mx
  let s := if mx = 0 then 0 else delta / mx
  let h0 :=
    if delta = 0 then 0
    else if mx = rf then 60 * goMod ((gf - bf) / delta + 6) 6
    else if mx = gf then 60 * ((bf - rf) / delta + 2)
    else 60 * ((rf - gf) / delta + 4)
  let h := if h0 < 0 then h0 + 360 else h0
  (h, s, v)

/-- `hsvToRGB` (src/main.go:501-528): sector decomposition, each output
channel rounded (`math.Round`) to an integer in `0..255`. -/
def hsvToRGB (h s v : ℚ) : ℕ × ℕ × ℕ :=
  let c := v * s
  let x := c * (1 - |goMod (h / 60) 2 - 1|)
  let m := v - c
  let rgb : ℚ × ℚ × ℚ :=
    if h < 60 then (c, x, 0)
    else if h < 120 then (x, c, 0)
    else if h < 180 then (0, c, x)
    else if h < 240 then (0, x, c)
    else if h < 300 then (x, 0, c)
    else (c, 0, x)
  ((goRound ((rgb.1 + m) * 255)).toNat,
   (goRound ((rgb.2.1 + m) * 255)).toNat,
   (goRound ((rgb.2.2 + m) * 255)).toNat)

/-- `applyHueShift` (src/main.go:436-462): per pixel RGB→HSV, add the
shift modulo 360 (wrapping negatives by +360), HSV→RGB; the 8-bit alpha
read from the source is written back unchanged. -/
def applyHueShift (src : Image) (hueShift : ℚ) : Image :=
  { width := src.width, height := src.height,
    pix := fun x y =>
      if x < src.width ∧ y < src.height then
        let p := src.pix x y
        let hsv := rgbToHSV p.r p.g p.b
        let h1 := goMod (hsv.1 + hueShift) 360
        let h2 := if h1 < 0 then h1 + 360 else h1
        let rgb := hsvToRGB h2 hsv.2.1 hsv.2.2
        ⟨rgb.1, rgb.2.1, rgb.2.2, p.a⟩
      else Pix.zero }

/-- The float source coordinate computed by `drawRotatedImage`
(src/main.go:1046-1082) for destination pixel `(x, y)`: translate to the
rotation center, apply the inverse rotation, translate to the source
center. -/
def rotateSrcCoordF (R : FloatOracle) (src : Image) (cx cy angle : ℚ)
    (x y : ℕ) : ℚ × ℚ :=
  let cosv := R.cos angle
  let sinv := R.sin angle
  let dx : ℚ := (x : ℚ) - cx
  let dy : ℚ := (y : ℚ) - cy
  (dx * cosv + dy * sinv + (src.width : ℚ) / 2,
   -dx * sinv + dy * cosv + (src.height : ℚ) / 2)

/-- The truncated (Go `int(...)`) source coordinate of the rotate
sampler. -/
def rotateSrcCoord (R : FloatOracle) (src : Image) (cx cy angle : ℚ)
    (x y : ℕ) : ℤ × ℤ :=
  let sc := rotateSrcCoordF R src cx cy angle x y
  (goInt sc.1, goInt sc.2)

/-- `drawRotatedImage` (src/main.go:1046-1082).  The destination is a
fresh zero buffer with the source bounds (its call sites build it so);
a pixel is written only when the float source coordinate lies inside
the source, otherwise it keeps the transparent zero. -/
def drawRotatedImage (R : FloatOracle) (src : Image) (cx cy angle : ℚ) :
    Image :=
  { width := src.width, height := src.height,
    pix := fun x y =>
      if x < src.width ∧ y < src.height then
        let sc := rotateSrcCoordF R src cx cy angle x y
        if 0 ≤ sc.1 ∧ sc.1 < (src.width : ℚ) ∧
            0 ≤ sc.2 ∧ sc.2 < (src.height : ℚ) then
          src.pix (goInt sc.1).toNat (goInt sc.2).toNat
        else Pix.zero
      else Pix.zero }

/-- The float source coordinate computed by `applyZoom`
(src/main.go:565-600): the source region shrunk by `1/zoom` around the
source center, sampled proportionally.  In every call site the
destination has the source bounds. -/
def zoomSrcCoordF (src : Image) (zoom : ℚ) (x y : ℕ) : ℚ × ℚ :=
  let srcW : ℚ := (src.width : ℚ)
  let srcH : ℚ := (src.height : ℚ)
  let srcRegionW := srcW / zoom
  let srcRegionH := srcH / zoom
  let srcMinX := srcW / 2 - srcRegionW / 2
  let srcMinY := srcH / 2 - srcRegionH / 2
  (srcMinX + ((x : ℚ) / srcW) * srcRegionW,
   srcMinY + ((y : ℚ) / srcH) * srcRegionH)

/-- The truncated source coordinate of the zoom sampler. -/
def zoomSrcCoord (src : Image) (zoom : ℚ) (x y : ℕ) : ℤ × ℤ :=
  let sc := zoomSrcCoordF src zoom x y
  (goInt sc.1, goInt sc.2)

/-- `applyZoom` (src/main.go:565-600): nearest-neighbor sampling of the
zoomed-in source window; the bounds check is on the truncated integer
coordinate and an out-of-bounds pixel keeps the transparent zero. -/
def applyZoom (src : Image) (zoom : ℚ) : Image :=
  { width := src.width, height := src.height,
    pix := fun x y =>
      if x < src.width ∧ y < src.height then
        let sc := zoomSrcCoord src zoom x y
        if 0 ≤ sc.1 ∧ sc.1 < (src.width : ℤ) ∧
            0 ≤ sc.2 ∧ sc.2 < (src.height : ℤ) then
          src.pix sc.1.toNat sc.2.toNat
        else Pix.zero
      else Pix.zero }

/-- The float source coordinate computed by `applyKaleidoscope`
(src/main.go:896-937): fold the (rotated) destination angle into one of
8 mirror segments and map back to a source angle at the same distance
from the center. -/
def kaleidoscopeSrcCoordF (R : FloatOracle) (cx cy rotationAngle : ℚ)
    (x y : ℕ) : ℚ × ℚ :=
  let dx : ℚ := (x : ℚ) - cx
  let dy : ℚ := (y : ℚ) - cy
  let angle := R.atan2 dy dx + rotationAngle
  let distance := R.sqrt (dx * dx + dy * dy)
  let segSpan := 2 * R.pi / 8
  let sa0 := goMod angle segSpan
  let sa1 := if sa0 < 0 then sa0 + segSpan else sa0
  let sa2 := if sa1 > R.pi / 8 then segSpan - sa1 else sa1
  let srcAngle := sa2 - rotationAngle
  (cx + distance * R.cos srcAngle, cy + distance * R.sin srcAngle)

/-- The truncated source coordinate of the kaleidoscope sampler. -/
def kaleidoscopeSrcCoord (R : FloatOracle) (cx cy rotationAngle : ℚ)
    (x y : ℕ) : ℤ × ℤ :=
  let sc := kaleidoscopeSrcCoordF R cx cy rotationAngle x y
  (goInt sc.1, goInt sc.2)

/-- `applyKaleidoscope` (src/main.go:896-937): bounds check on the
truncated integer coordinate; out-of-bounds destination pixels keep the
transparent zero. -/
def applyKaleidoscope (R : FloatOracle) (src : Image)
    (cx cy rotationAngle : ℚ) : Image :=
  { width := src.width, height := src.height,
    pix := fun x y =>
      if x < src.width ∧ y < src.height then
        let sc := kaleidoscopeSrcCoord R cx cy rotationAngle x y
        if 0 ≤ sc.1 ∧ sc.1 < (src.width : ℤ) ∧
            0 ≤ sc.2 ∧ sc.2 < (src.height : ℤ) then
          src.pix sc.1.toNat sc.2.toNat
        else Pix.zero
      else Pix.zero }

/-- The float source coordinate computed by `applyRipple`
(src/main.go:972-1011): radial sinusoidal displacement with amplitude 5
and frequency 1/10 along the original angle from the center. -/
def rippleSrcCoordF (R : FloatOracle) (cx cy phase : ℚ) (x y : ℕ) :
    ℚ × ℚ :=
  let dx : ℚ := (x : ℚ) - cx
  let dy : ℚ := (y : ℚ) - cy
  let distance := R.sqrt (dx * dx + dy * dy)
  let ripple := 5 * R.sin (distance * (1/10) - phase)
  let angle := R.atan2 dy dx
  let displacedDistance := distance + ripple
  (cx + displacedDistance * R.cos angle,
   cy + displacedDistance * R.sin angle)

/-- The truncated source coordinate of the ripple sampler. -/
def rippleSrcCoord (R : FloatOracle) (cx cy phase : ℚ) (x y : ℕ) :
    ℤ × ℤ :=
  let sc := rippleSrcCoordF R cx cy phase x y
  (goInt sc.1, goInt sc.2)

/-- Clamp an integer coordinate to `0..limit-1`
(Go: `int(math.Max(0, math.Min(float64(limit-1), float64(i))))`). -/
def clampEdge (i : ℤ) (limit : ℕ) : ℕ := (max 0 (min ((limit : ℤ) - 1) i)).toNat

/-- `applyRipple` (src/main.go:972-1011): like the other samplers, but
an out-of-bounds source coordinate is clamped to the nearest in-bounds
edge pixel instead of leaving the destination at zero.  The
`maxDistance` argument is accepted and unused, as in the source. -/
def applyRipple (R : FloatOracle) (src : Image)
    (cx cy phase maxDistance : ℚ) : Image :=
  { width := src.width, height := src.height,
    pix := fun x y =>
      if x < src.width ∧ y < src.height then
        let sc := rippleSrcCoord R cx cy phase x y
        if 0 ≤ sc.1 ∧ sc.1 < (src.width : ℤ) ∧
            0 ≤ sc.2 ∧ sc.2 < (src.height : ℤ) then
          src.pix sc.1.toNat sc.2.toNat
        else
          src.pix (clampEdge sc.1 src.width) (clampEdge sc.2 src.height)
      else Pix.zero }

/-- `applyTint` (src/main.go:744-769): blend every pixel with the pure
hue color at 50% opacity (each blended channel truncated to an integer);
alpha is copied unchanged. -/
def applyTint (src : Image) (hue : ℚ) : Image :=
  let tint := hsvToRGB hue 1 1
  { width := src.width, height := src.height,
    pix := fun x y =>
      if x < src.width ∧ y < src.height then
        let p := src.pix x y
        ⟨(goInt ((p.r : ℚ) * (1 - 1/2) + (tint.1 : ℚ) * (1/2))).toNat,
         (goInt ((p.g : ℚ) * (1 - 1/2) + (tint.2.1 : ℚ) * (1/2))).toNat,
         (goInt ((p.b : ℚ) * (1 - 1/2) + (tint.2.2 : ℚ) * (1/2))).toNat,
         p.a⟩
      else Pix.zero }

/-- `applyTintToRegion` (src/main.go:839-862): the 50% blend of
`applyTint` applied only inside the rectangle
`[startX, endX) × [startY, endY)`, reading from `src` and leaving the
accumulated destination alone elsewhere. -/
def applyTintToRegion (dst : ℕ → ℕ → Pix) (src : Image) (tint : Pix)
    (startX endX startY endY : ℕ) : ℕ → ℕ → Pix :=
  fun x y =>
    if startX ≤ x ∧ x < endX ∧ startY ≤ y ∧ y < endY then
      let p := src.pix x y
      ⟨(goInt ((p.r : ℚ) * (1 - 1/2) + (tint.r : ℚ) * (1/2))).toNat,
       (goInt ((p.g : ℚ) * (1 - 1/2) + (tint.g : ℚ) * (1/2))).toNat,
       (goInt ((p.b : ℚ) * (1 - 1/2) + (tint.b : ℚ) * (1/2))).toNat,
       p.a⟩
    else dst x y

/-- The four fixed highlighter colors of the vibes effect
(src/main.go:245-250). -/
def vibesColors : List Pix :=
  [⟨255, 20, 147, 255⟩, ⟨255, 255, 0, 255⟩, ⟨50, 255, 50, 255⟩, ⟨0, 200, 255, 255⟩]

/-- The vibes branch of `applyEffectToFrame` (src/main.go:242-282): draw
the base image, then tint each quarter with color `(frameIdx + quarter) % 4`. -/
def applyVibes (src : Image) (frameIdx : ℕ) : Image :=
  let w := src.width
  let h := src.height
  let base : ℕ → ℕ → Pix := fun x y =>
    if x < w ∧ y < h then src.pix x y else Pix.zero
  let step := fun (d : ℕ → ℕ → Pix) (quarter : ℕ) =>
    let colorIndex := (frameIdx + quarter) % 4
    let tint := vibesColors.getD colorIndex Pix.zero
    let region : ℕ × ℕ × ℕ × ℕ :=
      match quarter with
      | 0 => (0, w / 2, 0, h / 2)
      | 1 => (w / 2, w, 0, h / 2)
      | 2 => (0, w / 2, h / 2, h)
      | _ => (w / 2, w, h / 2, h)
    applyTintToRegion d src tint region.1 region.2.1 region.2.2.1 region.2.2.2
  { width := w, height := h, pix := [0, 1, 2, 3].foldl step base }

/-- The average color of the block `[sx, ex) × [sy, ey)`
(src/main.go:681-700): integer (truncating) division of the channel
sums by the pixel count; `none` when the block is empty
(`pixelCount == 0`). -/
def blockAverage (src : Image) (sx ex sy ey : ℕ) : Option Pix :=
  let xs := (List.range (ex - sx)).map (· + sx)
  let ys := (List.range (ey - sy)).map (· + sy)
  let cnt := xs.length * ys.length
  if cnt = 0 then none
  else
    let sums := ys.foldl (fun acc y =>
      xs.foldl (fun a2 x =>
        let p := src.pix x y
        (a2.1 + p.r, a2.2.1 + p.g, a2.2.2.1 + p.b, a2.2.2.2 + p.a)) acc)
      ((0, 0, 0, 0) : ℕ × ℕ × ℕ × ℕ)
    some ⟨sums.1 / cnt, sums.2.1 / cnt, sums.2.2.1 / cnt, sums.2.2.2 / cnt⟩

/-- `applyPixelate` (src/main.go:649-712): partition the image into
`ceil(dim / blockSize)` blocks per axis, fill each block (clamped to the
bounds) with its average color over a fresh zero buffer. -/
def applyPixelate (src : Image) (blockSize : ℚ) : Image :=
  let w := src.width
  let h := src.height
  let blocksX := (⌈(w : ℚ) / blockSize⌉).toNat
  let blocksY := (⌈(h : ℚ) / blockSize⌉).toNat
  let pixFun := (List.range blocksY).foldl (fun accY blockY =>
    (List.range blocksX).foldl (fun acc blockX =>
      let startX := (max 0 (goInt ((blockX : ℚ) * blockSize))).toNat
      let startY := (max 0 (goInt ((blockY : ℚ) * blockSize))).toNat
      let endX := min w (goInt (((blockX : ℚ) + 1) * blockSize)).toNat
      let endY := min h (goInt (((blockY : ℚ) + 1) * blockSize)).toNat
      match blockAverage src startX endX startY endY with
      | none => acc
      | some avg => fun x y =>
          if startX ≤ x ∧ x < endX ∧ startY ≤ y ∧ y < endY then avg
          else acc x y) accY)
    (fun _ _ => Pix.zero)
  { width := w, height := h, pix := pixFun }

/-- The eight effect subcommands accepted by the CLI; `rotate` is the
`360` subcommand. -/
inductive Effect where
  | rotate
  | hue
  | zoom
  | pixelate
  | tintRGB
  | vibes
  | kaleidoscope
  | ripple
deriving DecidableEq, Repr

/-- The non-square-image error of the rotate effect, carrying the actual
dimensions (`"image must be square (got %dx%d)"`). -/
structure ShapeErr where
  width : ℕ
  height : ℕ
deriving DecidableEq, Repr

/-- The block size computed by the pixelate branch of
`applyEffectToFrame` (src/main.go:218-229): interpolate from 1 to
`min(width, height)/4` by `frameIdx/(frameCount-1)` (progress forced to
0 when `frameCount == 1`). -/
def pixelateBlockSize (img : Image) (frameIdx : ℕ) (frameCount : ℤ) : ℚ :=
  let maxBlockSize : ℚ := min ((img.width : ℚ) / 4) ((img.height : ℚ) / 4)
  let progress : ℚ :=
    if frameCount = 1 then 0 else (frameIdx : ℚ) / ((frameCount : ℚ) - 1)
  1 + (maxBlockSize - 1) * progress

/-- The zoom factor computed by the zoom branch of `applyEffectToFrame`
(src/main.go:203-210): interpolate from 1 to 6. -/
def zoomFactor (frameIdx : ℕ) (frameCount : ℤ) : ℚ :=
  let progress : ℚ :=
    if frameCount = 1 then 0 else (frameIdx : ℚ) / ((frameCount : ℚ) - 1)
  1 + (6 - 1) * progress

/-- `applyEffectToFrame` (src/main.go:180-306): apply one named effect
for one frame.  `frameIdx` is a loop index (always `0 ≤ frameIdx <
frameCount` in the program); `frameCount` keeps the full Go `int` range.
The only error any branch can return is the rotate non-square check.
(When `frameCount = 0` the Go float divisions by `frameCount` produce
NaN channel values; `ℚ` division by zero yields 0 instead.  No theorem
below relies on pixel contents at `frameCount = 0` — only on the
ok/error structure, which does not depend on those values.) -/
def applyEffectToFrame (R : FloatOracle) (img : Image) (e : Effect)
    (frameIdx : ℕ) (frameCount : ℤ) : Except ShapeErr Image :=
  match e with
  | .rotate =>
      let direction : ℚ := 1
      let angle := (frameIdx : ℚ) * 2 * R.pi / (frameCount : ℚ) * direction
      if img.width ≠ img.height then
        Except.error ⟨img.width, img.height⟩
      else
        let center : ℚ := (img.width : ℚ) / 2
        Except.ok (drawRotatedImage R img center center angle)
  | .hue =>
      Except.ok (applyHueShift img ((frameIdx : ℚ) * 360 / (frameCount : ℚ)))
  | .zoom =>
      let zoom := zoomFactor frameIdx frameCount
      if zoom ≤ 1 then Except.ok (copyImage img)
      else Except.ok (applyZoom img zoom)
  | .pixelate =>
      let blockSize := pixelateBlockSize img frameIdx frameCount
      if blockSize ≤ 1 then Except.ok (copyImage img)
      else Except.ok (applyPixelate img blockSize)
  | .tintRGB =>
      Except.ok (applyTint img ((frameIdx : ℚ) * 360 / (frameCount : ℚ)))
  | .vibes =>
      Except.ok (applyVibes img frameIdx)
  | .kaleidoscope =>
      Except.ok (applyKaleidoscope R img ((img.width : ℚ) / 2)
        ((img.height : ℚ) / 2)
        ((frameIdx : ℚ) * 2 * R.pi / (frameCount : ℚ)))
  | .ripple =>
      let centerX : ℚ := (img.width : ℚ) / 2
      let centerY : ℚ := (img.height : ℚ) / 2
      let maxDistance := R.sqrt (centerX * centerX + centerY * centerY)
      Except.ok (applyRipple R img centerX centerY
        ((frameIdx : ℚ) * 2 * R.pi / (frameCount : ℚ)) maxDistance)

/-- `resizeImage` (src/main.go:327-367): errors on a zero-dimension
source; otherwise the target height is `int(targetWidth*srcHeight/srcWidth)`
(float truncation) and each target pixel nearest-neighbor samples the
source, clamped to the source bounds. -/
def resizeImage (img : Image) (targetWidth : ℕ) : Except String Image :=
  if img.width = 0 ∨ img.height = 0 then
    Except.error "source image has zero dimensions"
  else
    let targetHeight := (goInt ((targetWidth : ℚ) * (img.height : ℚ) / (img.width : ℚ))).toNat
    let scaleX : ℚ := (img.width : ℚ) / (targetWidth : ℚ)
    let scaleY : ℚ := (img.height : ℚ) / (targetHeight : ℚ)
    Except.ok
      { width := targetWidth, height := targetHeight,
        pix := fun x y =>
          if x < targetWidth ∧ y < targetHeight then
            let sx0 := (goInt ((x : ℚ) * scaleX)).toNat
            let sy0 := (goInt ((y : ℚ) * scaleY)).toNat
            let sx := if img.width ≤ sx0 then img.width - 1 else sx0
            let sy := if img.height ≤ sy0 then img.height - 1 else sy0
            img.pix sx sy
          else Pix.zero }

/-- The coordinates visited along one axis by the palette sampling loops
(src/main.go:1021-1023): `0, 4, 8, ...` strictly below `limit`. -/
def strideCoords (limit : ℕ) : List ℕ :=
  (List.range ((limit + 3) / 4)).map (· * 4)

/-- One step of the palette scan (src/main.go:1024-1031): append the
color when it is new and fewer than 256 colors have been collected.
(The Go loop breaks out once 256 colors are collected; never appending
past 256 yields the same list.) -/
def paletteAdd (acc : List Pix) (c : Pix) : List Pix :=
  if acc.length < 256 ∧ c ∉ acc then acc ++ [c] else acc

/-- The raw palette scan of `createPalette` (src/main.go:1020-1036):
row-major over stride-4 sample points. -/
def paletteScan (img : Image) : List Pix :=
  (strideCoords img.height).foldl (fun acc y =>
    (strideCoords img.width).foldl (fun acc2 x => paletteAdd acc2 (img.pix x y))
      acc) []

/-- `color.White` as an RGBA palette entry. -/
def whitePix : Pix := ⟨255, 255, 255, 255⟩

/-- `color.Black` as an RGBA palette entry. -/
def blackPix : Pix := ⟨0, 0, 0, 255⟩

/-- `createPalette` (src/main.go:1013-1044): the scan result, or
`{white, black}` when the scan found nothing. -/
def createPalette (img : Image) : List Pix :=
  let palette := paletteScan img
  if palette = [] then palette ++ [whitePix, blackPix] else palette

/-- The frame-generation loop of `main` (src/main.go:94-119): frame `i`
is the rendered (effect-chained, quantized) image for index `i`. -/
def generateAnimationFrames (render : ℕ → Image) (frameCount : ℕ) :
    List Image :=
  (List.range frameCount).map render

/-- The per-frame delay of `main` (src/main.go:134-136):
`int(math.Round(100.0 / float64(rate)))` hundredths of a second. -/
def delayPerFrame (rate : ℤ) : ℤ := goRound (100 / (rate : ℚ))

/-- The assembled animation of `main` (src/main.go:128-139): the frame
list plus one delay slot per frame, every slot set to `delayPerFrame`. -/
structure GIFAnim where
  frames : List Image
  delays : List ℤ

/-- Build the `gif.GIF` value as `main` does (src/main.go:128-139). -/
def assembleGIF (frames : List Image) (rate : ℤ) : GIFAnim :=
  { frames := frames
    delays := (List.range frames.length).map fun _ => delayPerFrame rate }

/-- The frame reversal of `main` (src/main.go:121-126): the in-place
symmetric swap loop computes exactly the reversal of the sequence. -/
def reverseFrames (frames : List Image) : List Image := frames.reverse

/-- A truncated source coordinate lies outside a `w × h` source. -/
abbrev oobCoord (p : ℤ × ℤ) (w h : ℕ) : Prop :=
  p.1 < 0 ∨ (w : ℤ) ≤ p.1 ∨ p.2 < 0 ∨ (h : ℤ) ≤ p.2

/-- The height of a successful resize, for concrete evaluation. -/
def resizedHeight (img : Image) (targetWidth : ℕ) : Option ℕ :=
  match resizeImage img targetWidth with
  | .ok out => some out.height
  | .error _ => none

/-- A trivial float oracle (all transcendental routines return 0). -/
def trivOracle : FloatOracle :=
  ⟨fun _ => 0, fun _ => 0, fun _ _ => 0, fun _ => 0, 0⟩

/-- A float oracle with `cos = 1`, used to exhibit out-of-bounds
sampling at concrete inputs. -/
def witOracle : FloatOracle :=
  ⟨fun _ => 0, fun _ => 1, fun _ _ => 0, fun _ => 0, 0⟩

/-- A concrete 1×1 test image. -/
def demoImg : Image := ⟨1, 1, fun _ _ => ⟨1, 2, 3, 4⟩⟩

/-- A concrete 0×0 test image. -/
def img0 : Image := ⟨0, 0, fun _ _ => Pix.zero⟩

/-- A concrete 3-wide, 2-high test image. -/
def img3x2 : Image := ⟨3, 2, fun _ _ => ⟨5, 6, 7, 255⟩⟩

/-- A concrete non-square (10×20) test image. -/
def img10x20 : Image := ⟨10, 20, fun _ _ => ⟨8, 8, 8, 255⟩⟩

/-- A concrete two-frame sequence. -/
def demoFrames : List Image := [demoImg, img0]

/-! ### Helper lemmas -/

theorem copyImage_eq (src : Image) : copyImage src = src := rfl

theorem goInt_nonneg_eq {q : ℚ} (h : 0 ≤ q) : goInt q = ⌊q⌋ := if_pos h

theorem goInt_inbounds {q : ℚ} {n : ℕ} (h0 : 0 ≤ q) (h1 : q < (n : ℚ)) :
    0 ≤ goInt q ∧ goInt q < (n : ℤ) := by
  rw [goInt_nonneg_eq h0]
  exact ⟨Int.floor_nonneg.mpr h0, Int.floor_lt.mpr (by exact_mod_cast h1)⟩

theorem applyEffectToFrame_ok_iff (R : FloatOracle) (img : Image) (e : Effect)
    (i : ℕ) (n : ℤ) :
    (∃ out, applyEffectToFrame R img e i n = Except.ok out) ↔
      ¬(e = Effect.rotate ∧ img.width ≠ img.height) := by
  cases e <;> simp only [applyEffectToFrame] <;>
    first
      | (split_ifs with h <;> simp_all)
      | simp_all

theorem foldl_preserve {α β : Type} (P : β → Prop) (f : β → α → β)
    (hf : ∀ b a, P b → P (f b a)) (l : List α) (b : β) (hb : P b) :
    P (l.foldl f b) := by
  induction l generalizing b with
  | nil => exact hb
  | cons hd tl ih => exact ih _ (hf _ _ hb)

theorem paletteAdd_invariant (acc : List Pix) (c : Pix)
    (h : acc.length ≤ 256 ∧ acc.Nodup) :
    (paletteAdd acc c).length ≤ 256 ∧ (paletteAdd acc c).Nodup := by
  unfold paletteAdd
  split_ifs with hc
  · refine ⟨by simp; omega, ?_⟩
    simp [List.nodup_append, h.2, hc.2]
  · exact h

theorem paletteScan_invariant (img : Image) :
    (paletteScan img).length ≤ 256 ∧ (paletteScan img).Nodup := by
  unfold paletteScan
  refine foldl_preserve (fun acc : List Pix => acc.length ≤ 256 ∧ acc.Nodup) _ ?_ _ _
    ⟨by simp, List.nodup_nil⟩
  intro acc y hacc
  refine foldl_preserve (fun acc2 : List Pix => acc2.length ≤ 256 ∧ acc2.Nodup) _ ?_ _ _ hacc
  intro acc2 x h2
  exact paletteAdd_invariant _ _ h2

/-! ### Claim theorems -/

/-- C1: Out-of-bounds sampling policy is asymmetric per effect.  For
every destination pixel of the rotate (`360`), zoom and kaleidoscope
effects whose truncated source coordinate falls outside the source
bounds, the destination pixel keeps its initialized default (fully
transparent zero); for the ripple effect such a pixel is instead filled
by clamping the source coordinate to the nearest in-bounds edge pixel
and copying that pixel.  Quantified over every float oracle, hence over
every value the float routines can produce. -/
theorem c1_oob_policy :
    (∀ (R : FloatOracle) (src : Image) (cx cy angle : ℚ) (x y : ℕ),
        x < src.width → y < src.height →
        oobCoord (rotateSrcCoord R src cx cy angle x y) src.width src.height →
        (drawRotatedImage R src cx cy angle).pix x y = Pix.zero) ∧
    (∀ (src : Image) (zoom : ℚ) (x y : ℕ),
        x < src.width → y < src.height →
        oobCoord (zoomSrcCoord src zoom x y) src.width src.height →
        (applyZoom src zoom).pix x y = Pix.zero) ∧
    (∀ (R : FloatOracle) (src : Image) (cx cy rot : ℚ) (x y : ℕ),
        x < src.width → y < src.height →
        oobCoord (kaleidoscopeSrcCoord R cx cy rot x y) src.width src.height →
        (applyKaleidoscope R src cx cy rot).pix x y = Pix.zero) ∧
    (∀ (R : FloatOracle) (src : Image) (cx cy phase md : ℚ) (x y : ℕ),
        x < src.width → y < src.height →
        oobCoord (rippleSrcCoord R cx cy phase x y) src.width src.height →
        (applyRipple R src cx cy phase md).pix x y =
          src.pix (clampEdge (rippleSrcCoord R cx cy phase x y).1 src.width)
            (clampEdge (rippleSrcCoord R cx cy phase x y).2 src.height)) := by
  refine ⟨?_, ?_, ?_, ?_⟩
  · intro R src cx cy angle x y hx hy hoob
    simp only [rotateSrcCoord] at hoob
    have hng : ¬(0 ≤ (rotateSrcCoordF R src cx cy angle x y).1 ∧
        (rotateSrcCoordF R src cx cy angle x y).1 < (src.width : ℚ) ∧
        0 ≤ (rotateSrcCoordF R src cx cy angle x y).2 ∧
        (rotateSrcCoordF R src cx cy angle x y).2 < (src.height : ℚ)) := by
      rintro ⟨h1, h2, h3, h4⟩
      obtain ⟨hx0, hxw⟩ := goInt_inbounds h1 h2
      obtain ⟨hy0, hyh⟩ := goInt_inbounds h3 h4
      rcases hoob with h | h | h | h <;> omega
    simp only [drawRotatedImage]
    rw [if_pos ⟨hx, hy⟩, if_neg hng]
  · intro src zoom x y hx hy hoob
    have hng : ¬(0 ≤ (zoomSrcCoord src zoom x y).1 ∧
        (zoomSrcCoord src zoom x y).1 < (src.width : ℤ) ∧
        0 ≤ (zoomSrcCoord src zoom x y).2 ∧
        (zoomSrcCoord src zoom x y).2 < (src.height : ℤ)) := by
      rintro ⟨h1, h2, h3, h4⟩
      rcases hoob with h | h | h | h <;> omega
    simp only [applyZoom]
    rw [if_pos ⟨hx, hy⟩, if_neg hng]
  · intro R src cx cy rot x y hx hy hoob
    have hng : ¬(0 ≤ (kaleidoscopeSrcCoord R cx cy rot x y).1 ∧
        (kaleidoscopeSrcCoord R cx cy rot x y).1 < (src.width : ℤ) ∧
        0 ≤ (kaleidoscopeSrcCoord R cx cy rot x y).2 ∧
        (kaleidoscopeSrcCoord R cx cy rot x y).2 < (src.height : ℤ)) := by
      rintro ⟨h1, h2, h3, h4⟩
      rcases hoob with h | h | h | h <;> omega
    simp only [applyKaleidoscope]
    rw [if_pos ⟨hx, hy⟩, if_neg hng]
  · intro R src cx cy phase md x y hx hy hoob
    have hng : ¬(0 ≤ (rippleSrcCoord R cx cy phase x y).1 ∧
        (rippleSrcCoord R cx cy phase x y).1 < (src.width : ℤ) ∧
        0 ≤ (rippleSrcCoord R cx cy phase x y).2 ∧
        (rippleSrcCoord R cx cy phase x y).2 < (src.height : ℤ)) := by
      rintro ⟨h1, h2, h3, h4⟩
      rcases hoob with h | h | h | h <;> omega
    simp only [applyRipple]
    rw [if_pos ⟨hx, hy⟩, if_neg hng]

/-- Witness for C1: concrete out-of-bounds samples for each of the four
geometric effects, on a 1×1 image. -/
theorem c1_oob_policy_witness :
    (drawRotatedImage witOracle demoImg 5 5 0).pix 0 0 = Pix.zero ∧
    (applyZoom demoImg (1/4)).pix 0 0 = Pix.zero ∧
    (applyKaleidoscope witOracle demoImg (-5) (-5) 10).pix 0 0 = Pix.zero ∧
    (applyRipple witOracle demoImg (-5) (-5) 0 0).pix 0 0 =
      demoImg.pix (clampEdge (rippleSrcCoord witOracle (-5) (-5) 0 0 0).1 1)
        (clampEdge (rippleSrcCoord witOracle (-5) (-5) 0 0 0).2 1) :=
  ⟨c1_oob_policy.1 witOracle demoImg 5 5 0 0 0 (by decide) (by decide)
      (by with_unfolding_all decide),
   c1_oob_policy.2.1 demoImg (1/4) 0 0 (by decide) (by decide)
      (by with_unfolding_all decide),
   c1_oob_policy.2.2.1 witOracle demoImg (-5) (-5) 10 0 0 (by decide) (by decide)
      (by with_unfolding_all decide),
   c1_oob_policy.2.2.2 witOracle demoImg (-5) (-5) 0 0 0 0 (by decide) (by decide)
      (by with_unfolding_all decide)⟩

/-- C2 counterexample: the claim says the resized height is
`round(targetWidth × srcHeight / srcWidth)`, but the code truncates
(`int(...)`): for a 3×2 source resized to width 4 the code produces
height 2 while `round(4·2/3) = round(8/3) = 3`. -/
theorem c2_counterexample :
    resizedHeight img3x2 4 = some 2 ∧ round ((4 : ℚ) * 2 / 3) = 3 := by
  constructor
  · with_unfolding_all rfl
  · with_unfolding_all decide

/-- C2 amended: for every source with positive dimensions and every
positive target width, resizing succeeds and produces width
`targetWidth` and height `⌊targetWidth × srcHeight / srcWidth⌋`
(the float quotient truncated, not rounded to nearest). -/
theorem c2_resize_dims (img : Image) (tw : ℕ) (hw : 0 < img.width)
    (hh : 0 < img.height) (htw : 0 < tw) :
    ∃ out, resizeImage img tw = Except.ok out ∧ out.width = tw ∧
      (out.height : ℤ) = ⌊(tw : ℚ) * (img.height : ℚ) / (img.width : ℚ)⌋ := by
  have hcond : ¬(img.width = 0 ∨ img.height = 0) := by omega
  simp only [resizeImage]
  rw [if_neg hcond]
  refine ⟨_, rfl, rfl, ?_⟩
  have hq : (0 : ℚ) ≤ (tw : ℚ) * (img.height : ℚ) / (img.width : ℚ) := by
    positivity
  rw [goInt_nonneg_eq hq, Int.toNat_of_nonneg (Int.floor_nonneg.mpr hq)]

/-- Witness for C2 amended: the 3×2 source at target width 4. -/
theorem c2_resize_dims_witness :
    (∃ out, resizeImage img3x2 4 = Except.ok out ∧ out.width = 4 ∧
      (out.height : ℤ) =
        ⌊(4 : ℚ) * ((img3x2.height : ℕ) : ℚ) / ((img3x2.width : ℕ) : ℚ)⌋) ∧
    ⌊(4 : ℚ) * ((img3x2.height : ℕ) : ℚ) / ((img3x2.width : ℕ) : ℚ)⌋ = 2 :=
  ⟨c2_resize_dims img3x2 4 (by decide) (by decide) (by decide),
   by with_unfolding_all decide⟩

/-- C3 counterexample: the claim says the core frame-generation path
re-validates `frameCount > 0` and reports a validation error when
invoked with `frameCount ≤ 0`; in fact `applyEffectToFrame` performs no
such validation and proceeds — with `frameCount = 0` the zoom effect
returns the identity copy of the input with no error. -/
theorem c3_counterexample :
    (0 : ℤ) ≤ 0 ∧
      applyEffectToFrame trivOracle demoImg Effect.zoom 0 0 =
        Except.ok demoImg :=
  ⟨le_refl 0, by with_unfolding_all rfl⟩

/-- C3 amended: the core frame-generation path performs no defensive
re-validation: invoked with `frameCount ≤ 0` it succeeds exactly as for
positive counts (the only possible error remains the rotate non-square
check; `rate` is never passed to it at all — only the CLI validates). -/
theorem c3_no_revalidation (R : FloatOracle) (img : Image) (e : Effect)
    (i : ℕ) (n : ℤ) (hn : n ≤ 0) :
    (∃ out, applyEffectToFrame R img e i n = Except.ok out) ↔
      ¬(e = Effect.rotate ∧ img.width ≠ img.height) :=
  applyEffectToFrame_ok_iff R img e i n

/-- Witness for C3 amended: the hue effect at `frameCount = -3`
succeeds. -/
theorem c3_no_revalidation_witness :
    ∃ out, applyEffectToFrame trivOracle demoImg Effect.hue 0 (-3) =
      Except.ok out :=
  (c3_no_revalidation trivOracle demoImg Effect.hue 0 (-3) (by decide)).mpr
    (by simp)

/-- C4: `applyEffectToFrame` returns an error exactly when the effect is
rotate (`360`) and the input is non-square, and that error reports the
actual dimensions; every other effect (and rotate on square input)
succeeds on any rectangular input.  This holds for every frame index,
so in the `main` loop the rotate error surfaces at frame 0, before any
frame is produced. -/
theorem c4_rotate_square_error (R : FloatOracle) (img : Image) (e : Effect)
    (i : ℕ) (n : ℤ) :
    (e = Effect.rotate → img.width ≠ img.height →
      applyEffectToFrame R img e i n = Except.error ⟨img.width, img.height⟩) ∧
    (¬(e = Effect.rotate ∧ img.width ≠ img.height) →
      ∃ out, applyEffectToFrame R img e i n = Except.ok out) := by
  constructor
  · rintro rfl hne
    simp only [applyEffectToFrame]
    rw [if_pos hne]
  · exact (applyEffectToFrame_ok_iff R img e i n).mpr

/-- Witness for C4: rotate on the concrete 10×20 image fails reporting
(10, 20); hue on the same image succeeds. -/
theorem c4_rotate_square_error_witness :
    applyEffectToFrame trivOracle img10x20 Effect.rotate 0 12 =
      Except.error ⟨10, 20⟩ ∧
    ∃ out, applyEffectToFrame trivOracle img10x20 Effect.hue 0 12 =
      Except.ok out :=
  ⟨(c4_rotate_square_error trivOracle img10x20 Effect.rotate 0 12).1 rfl
      (by decide),
   (c4_rotate_square_error trivOracle img10x20 Effect.hue 0 12).2 (by simp)⟩

/-- C5: the palette builder returns between 1 and 256 distinct colors,
scanned at stride 4 in row-major order (this is the definition of
`paletteScan`), deterministically, falling back to `{white, black}`
when the scan yields nothing. -/
theorem c5_palette_invariants (img : Image) :
    1 ≤ (createPalette img).length ∧ (createPalette img).length ≤ 256 ∧
    (createPalette img).Nodup ∧
    (paletteScan img = [] → createPalette img = [whitePix, blackPix]) ∧
    ∀ img2, img = img2 → createPalette img = createPalette img2 := by
  have hinv := paletteScan_invariant img
  have hcp : createPalette img =
      if paletteScan img = [] then paletteScan img ++ [whitePix, blackPix]
      else paletteScan img := rfl
  by_cases hempty : paletteScan img = []
  · have hval : createPalette img = [whitePix, blackPix] := by
      rw [hcp, if_pos hempty, hempty]
      simp
    rw [hval]
    exact ⟨by decide, by decide, by decide, fun _ => rfl,
      fun _ h => by rw [← hval, h]⟩
  · have hval : createPalette img = paletteScan img := by
      rw [hcp, if_neg hempty]
    rw [hval]
    refine ⟨?_, hinv.1, hinv.2, fun h => absurd h hempty,
      fun _ h => by rw [← hval, h]⟩
    have := List.length_pos.mpr hempty
    omega

/-- Witness for C5: the 0×0 image scans to nothing and falls back to
`{white, black}`; the 1×1 image has a nonempty palette. -/
theorem c5_palette_invariants_witness :
    createPalette img0 = [whitePix, blackPix] ∧
      1 ≤ (createPalette demoImg).length :=
  ⟨(c5_palette_invariants img0).2.2.2.1 rfl,
   (c5_palette_invariants demoImg).1⟩

/-- C6: for positive `frameCount` and `rate`, the generated frame list
has exactly `frameCount` entries (before any reversal) and the
assembled animation assigns every frame the same delay
`round(100/rate)` hundredths of a second, regardless of what the
renderer (effect chain) produced. -/
theorem c6_animation_assembly (render : ℕ → Image) (frameCount : ℕ)
    (rate : ℤ) (hn : 0 < frameCount) (hr : 0 < rate) :
    (generateAnimationFrames render frameCount).length = frameCount ∧
    (assembleGIF (generateAnimationFrames render frameCount) rate).delays.length
      = frameCount ∧
    ∀ d ∈ (assembleGIF (generateAnimationFrames render frameCount) rate).delays,
      d = round ((100 : ℚ) / (rate : ℚ)) := by
  have hlen : (generateAnimationFrames render frameCount).length = frameCount := by
    simp [generateAnimationFrames]
  refine ⟨hlen, by simp [assembleGIF, hlen], ?_⟩
  intro d hd
  simp only [assembleGIF, List.mem_map] at hd
  obtain ⟨_, _, rfl⟩ := hd
  have h0 : (0 : ℚ) ≤ 100 / (rate : ℚ) := by positivity
  unfold delayPerFrame goRound
  rw [if_pos h0, round_eq]

/-- Witness for C6: four frames at rate 2, each with delay 50. -/
theorem c6_animation_assembly_witness :
    (assembleGIF (generateAnimationFrames (fun _ => img0) 4) 2).delays.length
        = 4 ∧
      delayPerFrame 2 = 50 :=
  ⟨(c6_animation_assembly (fun _ => img0) 4 2 (by decide) (by decide)).2.1,
   by with_unfolding_all decide⟩

/-- C7: the pixelate effect with `frameCount = 1` (progress forced to 0,
hence block size 1) is a pixel-for-pixel identity copy, and more
generally whenever the computed block size is ≤ 1 the pixelate effect
returns an identity copy of its input. -/
theorem c7_pixelate_identity (R : FloatOracle) (img : Image) (i : ℕ)
    (n : ℤ) :
    applyEffectToFrame R img Effect.pixelate i 1 = Except.ok img ∧
      (pixelateBlockSize img i n ≤ 1 →
        applyEffectToFrame R img Effect.pixelate i n = Except.ok img) := by
  have key : ∀ m : ℤ, pixelateBlockSize img i m ≤ 1 →
      applyEffectToFrame R img Effect.pixelate i m = Except.ok img := by
    intro m hm
    simp only [applyEffectToFrame]
    rw [if_pos hm, copyImage_eq]
  refine ⟨key 1 ?_, key n⟩
  simp [pixelateBlockSize]

/-- Witness for C7: pixelate at `frameCount = 1` on the concrete 3×2
image is the identity. -/
theorem c7_pixelate_identity_witness :
    applyEffectToFrame trivOracle img3x2 Effect.pixelate 0 1 =
      Except.ok img3x2 :=
  (c7_pixelate_identity trivOracle img3x2 0 1).1

/-- C8: frame reversal permutes only order — the frame at index `i`
moves to index `N−1−i` with contents untouched — and reversing twice
restores the original sequence exactly. -/
theorem c8_reverse_involution (frames : List Image) :
    (∀ (i : ℕ) (h : i < frames.length),
        (reverseFrames frames).get
          ⟨frames.length - 1 - i, by simp [reverseFrames]; omega⟩ =
          frames.get ⟨i, h⟩) ∧
      reverseFrames (reverseFrames frames) = frames := by
  constructor
  · intro i h
    exact List.get_reverse frames i (by simp [reverseFrames]; omega) h
  · simp [reverseFrames]

/-- Witness for C8: a concrete two-frame sequence. -/
theorem c8_reverse_involution_witness :
    reverseFrames (reverseFrames demoFrames) = demoFrames ∧
      (reverseFrames demoFrames).get ⟨1, by decide⟩ =
        demoFrames.get ⟨0, by decide⟩ :=
  ⟨(c8_reverse_involution demoFrames).2,
   (c8_reverse_involution demoFrames).1 0 (by decide)⟩

/-- C10: the hue effect preserves the alpha channel: every output pixel
carries exactly the alpha of the source pixel; only R, G, B change. -/
theorem c10_hue_preserves_alpha (src : Image) (shift : ℚ) (x y : ℕ)
    (hx : x < src.width) (hy : y < src.height) :
    ((applyHueShift src shift).pix x y).a = (src.pix x y).a := by
  simp only [applyHueShift]
  rw [if_pos ⟨hx, hy⟩]

/-- Witness for C10: a concrete pixel of the 1×1 image under a 90° hue
shift. -/
theorem c10_hue_preserves_alpha_witness :
    ((applyHueShift demoImg 90).pix 0 0).a = (demoImg.pix 0 0).a :=
  c10_hue_preserves_alpha demoImg 90 0 0 (by decide) (by decide)


/-! ### C9 infrastructure -/

theorem goRound_natCast (k : ℕ) : goRound ((k : ℚ)) = (k : ℤ) := by
  unfold goRound
  rw [if_pos (by positivity), Int.floor_eq_iff]
  constructor
  · push_cast
    linarith
  · push_cast
    linarith

theorem roundChan_recover (k : ℕ) : (goRound (((k : ℚ) / 255) * 255)).toNat = k := by
  have h : ((k : ℚ) / 255) * 255 = (k : ℚ) := by field_simp
  rw [h, goRound_natCast, Int.toNat_natCast]

theorem goMod_nonneg_bounds {x y : ℚ} (hx : 0 ≤ x) (hy : 0 < y) :
    0 ≤ goMod x y ∧ goMod x y < y := by
  unfold goMod
  rw [goInt_nonneg_eq (by positivity)]
  have key : x - y * (⌊x / y⌋ : ℚ) = y * Int.fract (x / y) := by
    rw [Int.fract]
    field_simp
  rw [key]
  refine ⟨mul_nonneg hy.le (Int.fract_nonneg _), ?_⟩
  calc y * Int.fract (x / y) < y * 1 :=
        mul_lt_mul_of_pos_left (Int.fract_lt_one _) hy
    _ = y := mul_one y

theorem goRound_mono {a b : ℚ} (h0 : 0 ≤ a) (hab : a ≤ b) :
    goRound a ≤ goRound b := by
  unfold goRound
  rw [if_pos h0, if_pos (le_trans h0 hab)]
  exact Int.floor_le_floor (by linarith)

theorem hsv_sector0 (s v : ℚ) :
    hsvToRGB 0 s v = ((goRound (v * 255)).toNat,
      (goRound ((v - v * s) * 255)).toNat, (goRound ((v - v * s) * 255)).toNat) := by
  have hm : goMod (0 : ℚ) 2 = 0 := by with_unfolding_all decide
  unfold hsvToRGB
  norm_num [hm]

theorem hsv_sector60 (s v : ℚ) :
    hsvToRGB 60 s v = ((goRound (v * 255)).toNat, (goRound (v * 255)).toNat,
      (goRound ((v - v * s) * 255)).toNat) := by
  have hm : goMod (1 : ℚ) 2 = 1 := by with_unfolding_all decide
  unfold hsvToRGB
  norm_num [hm]

theorem hsv_sector120 (s v : ℚ) :
    hsvToRGB 120 s v = ((goRound ((v - v * s) * 255)).toNat,
      (goRound (v * 255)).toNat, (goRound ((v - v * s) * 255)).toNat) := by
  have hm : goMod (2 : ℚ) 2 = 0 := by with_unfolding_all decide
  unfold hsvToRGB
  norm_num [hm]

theorem hsv_sector180 (s v : ℚ) :
    hsvToRGB 180 s v = ((goRound ((v - v * s) * 255)).toNat,
      (goRound (v * 255)).toNat, (goRound (v * 255)).toNat) := by
  have hm : goMod (3 : ℚ) 2 = 1 := by with_unfolding_all decide
  unfold hsvToRGB
  norm_num [hm]

theorem hsv_sector240 (s v : ℚ) :
    hsvToRGB 240 s v = ((goRound ((v - v * s) * 255)).toNat,
      (goRound ((v - v * s) * 255)).toNat, (goRound (v * 255)).toNat) := by
  have hm : goMod (4 : ℚ) 2 = 0 := by with_unfolding_all decide
  unfold hsvToRGB
  norm_num [hm]

theorem hsv_sector300 (s v : ℚ) :
    hsvToRGB 300 s v = ((goRound (v * 255)).toNat,
      (goRound ((v - v * s) * 255)).toNat, (goRound (v * 255)).toNat) := by
  have hm : goMod (5 : ℚ) 2 = 1 := by with_unfolding_all decide
  unfold hsvToRGB
  norm_num [hm]


theorem goMod_t6 {t : ℚ} (h1 : -1 ≤ t) (h2 : t ≤ 1) :
    goMod (t + 6) 6 = if 0 ≤ t then t else t + 6 := by
  unfold goMod
  rw [goInt_nonneg_eq (div_nonneg (by linarith) (by norm_num))]
  by_cases ht : 0 ≤ t
  · have hf : ⌊(t + 6) / 6⌋ = 1 := by
      rw [Int.floor_eq_iff]
      constructor
      · push_cast
        linarith
      · push_cast
        linarith
    rw [hf, if_pos ht]
    push_cast
    ring
  · have hf : ⌊(t + 6) / 6⌋ = 0 := by
      rw [Int.floor_eq_iff]
      constructor
      · push_cast
        linarith
      · push_cast
        linarith
    rw [hf, if_neg ht]
    push_cast
    ring

theorem max3_cases (a b c : ℚ) :
    max (max a b) c = a ∨ max (max a b) c = b ∨ max (max a b) c = c := by
  rcases max_choice (max a b) c with h | h
  · rcases max_choice a b with h2 | h2
    · exact Or.inl (h.trans h2)
    · exact Or.inr (Or.inl (h.trans h2))
  · exact Or.inr (Or.inr h)

theorem chan_recover {q : ℚ} {k : ℕ} (h : q = (k : ℚ) / 255) :
    (goRound (q * 255)).toNat = k := by
  rw [h]
  exact roundChan_recover k

theorem hsv_boundary_inversion (r g b : ℕ)
    (hb : (rgbToHSV r g b).1 = 0 ∨ (rgbToHSV r g b).1 = 60 ∨
      (rgbToHSV r g b).1 = 120 ∨ (rgbToHSV r g b).1 = 180 ∨
      (rgbToHSV r g b).1 = 240 ∨ (rgbToHSV r g b).1 = 300) :
    hsvToRGB (rgbToHSV r g b).1 (rgbToHSV r g b).2.1 (rgbToHSV r g b).2.2 =
      (r, g, b) := by
  set rf : ℚ := (r : ℚ) / 255 with hrf
  set gf : ℚ := (g : ℚ) / 255 with hgf
  set bf : ℚ := (b : ℚ) / 255 with hbf
  set mx := max (max rf gf) bf with hmxdef
  set mn := min (min rf gf) bf with hmndef
  have hv0 : (rgbToHSV r g b).2.2 = mx := rfl
  have hs0 : (rgbToHSV r g b).2.1 = if mx = 0 then 0 else (mx - mn) / mx := rfl
  have hh0 : (rgbToHSV r g b).1 =
      (if (if mx - mn = 0 then (0 : ℚ)
        else if mx = rf then 60 * goMod ((gf - bf) / (mx - mn) + 6) 6
        else if mx = gf then 60 * ((bf - rf) / (mx - mn) + 2)
        else 60 * ((rf - gf) / (mx - mn) + 4)) < 0
       then (if mx - mn = 0 then (0 : ℚ)
        else if mx = rf then 60 * goMod ((gf - bf) / (mx - mn) + 6) 6
        else if mx = gf then 60 * ((bf - rf) / (mx - mn) + 2)
        else 60 * ((rf - gf) / (mx - mn) + 4)) + 360
       else (if mx - mn = 0 then (0 : ℚ)
        else if mx = rf then 60 * goMod ((gf - bf) / (mx - mn) + 6) 6
        else if mx = gf then 60 * ((bf - rf) / (mx - mn) + 2)
        else 60 * ((rf - gf) / (mx - mn) + 4))) := rfl
  have hrf0 : (0 : ℚ) ≤ rf := by positivity
  have hgf0 : (0 : ℚ) ≤ gf := by positivity
  have hbf0 : (0 : ℚ) ≤ bf := by positivity
  have hle_rf_mx : rf ≤ mx := le_trans (le_max_left rf gf) (le_max_left _ bf)
  have hle_gf_mx : gf ≤ mx := le_trans (le_max_right rf gf) (le_max_left _ bf)
  have hle_bf_mx : bf ≤ mx := le_max_right _ bf
  have hle_mn_rf : mn ≤ rf := le_trans (min_le_left _ bf) (min_le_left rf gf)
  have hle_mn_gf : mn ≤ gf := le_trans (min_le_left _ bf) (min_le_right rf gf)
  have hle_mn_bf : mn ≤ bf := min_le_right _ bf
  have hmn0 : (0 : ℚ) ≤ mn := le_min (le_min hrf0 hgf0) hbf0
  by_cases hd : mx - mn = 0
  · -- achromatic: all channels equal, s = 0, h = 0
    have hrfmx : rf = mx := le_antisymm hle_rf_mx (by linarith)
    have hgfmx : gf = mx := le_antisymm hle_gf_mx (by linarith)
    have hbfmx : bf = mx := le_antisymm hle_bf_mx (by linarith)
    have hs1 : (rgbToHSV r g b).2.1 = 0 := by
      rw [hs0]
      split_ifs with h0
      · rfl
      · rw [hd, zero_div]
    have hh1 : (rgbToHSV r g b).1 = 0 := by
      rw [hh0, if_pos hd, if_neg (by norm_num)]
    rw [hh1, hs1, hv0, hsv_sector0]
    refine Prod.ext ?_ (Prod.ext ?_ ?_) <;> simp only
    · exact chan_recover (by rw [← hrfmx])
    · exact chan_recover (by rw [mul_zero, sub_zero, ← hgfmx])
    · exact chan_recover (by rw [mul_zero, sub_zero, ← hbfmx])
  · -- chromatic
    have hmnmx : mn < mx := lt_of_le_of_ne (by linarith)
      fun h => hd (by rw [h, sub_self])
    have hmx0 : (0 : ℚ) < mx := lt_of_le_of_lt hmn0 hmnmx
    have hdpos : (0 : ℚ) < mx - mn := by linarith
    have hs1 : (rgbToHSV r g b).2.1 = (mx - mn) / mx := by
      rw [hs0, if_neg (ne_of_gt hmx0)]
    have hcm : mx - mx * ((mx - mn) / mx) = mn := by
      field_simp
    by_cases hmxrf : mx = rf
    · -- max = rf branch
      rw [if_neg hd, if_pos hmxrf] at hh0
      set t : ℚ := (gf - bf) / (mx - mn) with ht
      have ht_lb : -1 ≤ t := by
        rw [ht, le_div_iff₀ hdpos]
        linarith
      have ht_ub : t ≤ 1 := by
        rw [ht, div_le_one hdpos]
        linarith
      rw [goMod_t6 ht_lb ht_ub] at hh0
      by_cases ht0 : 0 ≤ t
      · rw [if_pos ht0, if_neg (by linarith)] at hh0
        rw [hh0] at hb
        rcases hb with h6 | h6 | h6 | h6 | h6 | h6
        · -- h = 0: gf = bf = mn
          have htv : t = 0 := by linarith
          have h1 : (gf - bf) / (mx - mn) = 0 := ht.symm.trans htv
          have hgb : gf = bf := by
            rcases div_eq_zero_iff.mp h1 with h | h
            · linarith
            · exact absurd h hd
          have hgfmn : gf = mn := by
            have h2 : min rf gf = gf := min_eq_right (by linarith)
            rw [hmndef, h2, hgb, min_self]
          have hbfmn : bf = mn := by linarith
          rw [hh0, h6, hs1, hv0, hsv_sector0]
          refine Prod.ext ?_ (Prod.ext ?_ ?_) <;> simp only
          · exact chan_recover (by rw [hmxrf])
          · exact chan_recover (by rw [hcm, ← hgfmn])
          · exact chan_recover (by rw [hcm, ← hbfmn])
        · -- h = 60: gf = mx, bf = mn
          have htv : t = 1 := by linarith
          have h1 : (gf - bf) / (mx - mn) = 1 := ht.symm.trans htv
          have hkey : gf - bf = mx - mn := by
            field_simp [hd] at h1
            linarith
          have hgfmx : gf = mx := le_antisymm hle_gf_mx (by linarith)
          have hbfmn : bf = mn := by linarith
          rw [hh0, h6, hs1, hv0, hsv_sector60]
          refine Prod.ext ?_ (Prod.ext ?_ ?_) <;> simp only
          · exact chan_recover (by rw [hmxrf])
          · exact chan_recover (by rw [← hgfmx])
          · exact chan_recover (by rw [hcm, ← hbfmn])
        · exfalso; linarith
        · exfalso; linarith
        · exfalso; linarith
        · exfalso; linarith
      · rw [if_neg ht0, if_neg (by linarith)] at hh0
        rw [hh0] at hb
        rcases hb with h6 | h6 | h6 | h6 | h6 | h6
        · exfalso; linarith
        · exfalso; linarith
        · exfalso; linarith
        · exfalso; linarith
        · exfalso; linarith
        · -- h = 300: bf = mx, gf = mn
          have htv : t = -1 := by linarith
          have h1 : (gf - bf) / (mx - mn) = -1 := ht.symm.trans htv
          have hkey : gf - bf = -(mx - mn) := by
            field_simp [hd] at h1
            linarith
          have hbfmx : bf = mx := le_antisymm hle_bf_mx (by linarith)
          have hgfmn : gf = mn := by linarith
          rw [hh0, h6, hs1, hv0, hsv_sector300]
          refine Prod.ext ?_ (Prod.ext ?_ ?_) <;> simp only
          · exact chan_recover (by rw [hmxrf])
          · exact chan_recover (by rw [hcm, ← hgfmn])
          · exact chan_recover (by rw [← hbfmx])
    · by_cases hmxgf : mx = gf
      · -- max = gf branch
        rw [if_neg hd, if_neg hmxrf, if_pos hmxgf] at hh0
        set u : ℚ := (bf - rf) / (mx - mn) with hu
        have hu_lb : -1 ≤ u := by
          rw [hu, le_div_iff₀ hdpos]
          linarith
        have hu_ub : u ≤ 1 := by
          rw [hu, div_le_one hdpos]
          linarith
        rw [if_neg (by linarith)] at hh0
        rw [hh0] at hb
        rcases hb with h6 | h6 | h6 | h6 | h6 | h6
        · exfalso; linarith
        · -- h = 60 would force rf = mx, contradiction
          exfalso
          have huv : u = -1 := by linarith
          have h1 : (bf - rf) / (mx - mn) = -1 := hu.symm.trans huv
          have hkey : bf - rf = -(mx - mn) := by
            field_simp [hd] at h1
            linarith
          have hrfmx : rf = mx := le_antisymm hle_rf_mx (by linarith)
          exact hmxrf hrfmx.symm
        · -- h = 120: rf = bf = mn
          have huv : u = 0 := by linarith
          have h1 : (bf - rf) / (mx - mn) = 0 := hu.symm.trans huv
          have hbr : bf = rf := by
            rcases div_eq_zero_iff.mp h1 with h | h
            · linarith
            · exact absurd h hd
          have hrfmn : rf = mn := by
            have h2 : min rf gf = rf := min_eq_left (by linarith)
            rw [hmndef, h2, hbr, min_self]
          have hbfmn : bf = mn := by linarith
          rw [hh0, h6, hs1, hv0, hsv_sector120]
          refine Prod.ext ?_ (Prod.ext ?_ ?_) <;> simp only
          · exact chan_recover (by rw [hcm, ← hrfmn])
          · exact chan_recover (by rw [hmxgf])
          · exact chan_recover (by rw [hcm, ← hbfmn])
        · -- h = 180: bf = mx, rf = mn
          have huv : u = 1 := by linarith
          have h1 : (bf - rf) / (mx - mn) = 1 := hu.symm.trans huv
          have hkey : bf - rf = mx - mn := by
            field_simp [hd] at h1
            linarith
          have hbfmx : bf = mx := le_antisymm hle_bf_mx (by linarith)
          have hrfmn : rf = mn := by linarith
          rw [hh0, h6, hs1, hv0, hsv_sector180]
          refine Prod.ext ?_ (Prod.ext ?_ ?_) <;> simp only
          · exact chan_recover (by rw [hcm, ← hrfmn])
          · exact chan_recover (by rw [hmxgf])
          · exact chan_recover (by rw [← hbfmx])
        · exfalso; linarith
        · exfalso; linarith
      · -- max = bf branch
        have hmxbf : mx = bf := by
          rcases max3_cases rf gf bf with h | h | h
          · exact absurd (by rw [hmxdef]; exact h) hmxrf
          · exact absurd (by rw [hmxdef]; exact h) hmxgf
          · rw [hmxdef]; exact h
        rw [if_neg hd, if_neg hmxrf, if_neg hmxgf] at hh0
        set w : ℚ := (rf - gf) / (mx - mn) with hw
        have hw_lb : -1 ≤ w := by
          rw [hw, le_div_iff₀ hdpos]
          linarith
        have hw_ub : w ≤ 1 := by
          rw [hw, div_le_one hdpos]
          linarith
        rw [if_neg (by linarith)] at hh0
        rw [hh0] at hb
        rcases hb with h6 | h6 | h6 | h6 | h6 | h6
        · exfalso; linarith
        · exfalso; linarith
        · exfalso; linarith
        · -- h = 180 would force gf = mx, contradiction
          exfalso
          have hwv : w = -1 := by linarith
          have h1 : (rf - gf) / (mx - mn) = -1 := hw.symm.trans hwv
          have hkey : rf - gf = -(mx - mn) := by
            field_simp [hd] at h1
            linarith
          have hgfmx : gf = mx := le_antisymm hle_gf_mx (by linarith)
          exact hmxgf hgfmx.symm
        · -- h = 240: rf = gf = mn
          have hwv : w = 0 := by linarith
          have h1 : (rf - gf) / (mx - mn) = 0 := hw.symm.trans hwv
          have hrg : rf = gf := by
            rcases div_eq_zero_iff.mp h1 with h | h
            · linarith
            · exact absurd h hd
          have hrfmn : rf = mn := by
            have h2 : min rf gf = rf := min_eq_left (by linarith)
            rw [hmndef, h2]
            exact (min_eq_left (by linarith)).symm
          have hgfmn : gf = mn := by linarith
          rw [hh0, h6, hs1, hv0, hsv_sector240]
          refine Prod.ext ?_ (Prod.ext ?_ ?_) <;> simp only
          · exact chan_recover (by rw [hcm, ← hrfmn])
          · exact chan_recover (by rw [hcm, ← hgfmn])
          · exact chan_recover (by rw [hmxbf])
        · -- h = 300 would force rf = mx, contradiction
          exfalso
          have hwv : w = 1 := by linarith
          have h1 : (rf - gf) / (mx - mn) = 1 := hw.symm.trans hwv
          have hkey : rf - gf = mx - mn := by
            field_simp [hd] at h1
            linarith
          have hrfmx : rf = mx := le_antisymm hle_rf_mx (by linarith)
          exact hmxrf hrfmx.symm

theorem rgbToHSV_vcomp (a b c : ℕ) :
    (rgbToHSV a b c).2.2 =
      max (max ((a : ℚ) / 255) ((b : ℚ) / 255)) ((c : ℚ) / 255) := rfl

theorem goRound_abs_le {q : ℚ} (h : 0 ≤ q) : |(goRound q : ℚ) - q| ≤ 1 / 2 := by
  unfold goRound
  rw [if_pos h, abs_le]
  constructor
  · have := Int.lt_floor_add_one (q + 1 / 2)
    push_cast at this ⊢
    linarith
  · have := Int.floor_le (q + 1 / 2)
    push_cast at this ⊢
    linarith

theorem goRound_nonneg {q : ℚ} (h : 0 ≤ q) : 0 ≤ goRound q := by
  unfold goRound
  rw [if_pos h]
  exact Int.floor_nonneg.mpr (by linarith)

theorem chanQ_mono {q1 q2 : ℚ} (h0 : 0 ≤ q1) (h : q1 ≤ q2) :
    ((goRound (q1 * 255)).toNat : ℚ) / 255 ≤
      ((goRound (q2 * 255)).toNat : ℚ) / 255 := by
  have h1 : goRound (q1 * 255) ≤ goRound (q2 * 255) :=
    goRound_mono (by positivity) (by linarith)
  have h2 : (goRound (q1 * 255)).toNat ≤ (goRound (q2 * 255)).toNat :=
    Int.toNat_le_toNat h1
  have h3 : ((goRound (q1 * 255)).toNat : ℚ) ≤ ((goRound (q2 * 255)).toNat : ℚ) := by
    exact_mod_cast h2
  linarith

theorem max3a {a b c : ℚ} (hb : b ≤ a) (hc : c ≤ a) : max (max a b) c = a := by
  rw [max_eq_left hb, max_eq_left hc]

theorem max3b {a b c : ℚ} (hb : b ≤ a) (hc : c ≤ a) : max (max b a) c = a := by
  rw [max_eq_right hb, max_eq_left hc]

theorem max3c {a b c : ℚ} (hb : b ≤ a) (hc : c ≤ a) : max (max b c) a = a :=
  max_eq_right (max_le hb hc)

theorem chanV_close {v : ℚ} (hv : 0 ≤ v) :
    |((goRound (v * 255)).toNat : ℚ) / 255 - v| ≤ 1 / 510 := by
  have hcast : (((goRound (v * 255)).toNat : ℤ) : ℚ) = ((goRound (v * 255) : ℤ) : ℚ) := by
    exact_mod_cast Int.toNat_of_nonneg (goRound_nonneg (by positivity))
  have habs := goRound_abs_le (show (0 : ℚ) ≤ v * 255 by positivity)
  have hsplit : ((goRound (v * 255)).toNat : ℚ) / 255 - v =
      (((goRound (v * 255)).toNat : ℚ) - v * 255) / 255 := by ring
  rw [hsplit, abs_div, abs_of_pos (show (0 : ℚ) < 255 by norm_num)]
  have : |((goRound (v * 255)).toNat : ℚ) - v * 255| ≤ 1 / 2 := by
    push_cast at hcast
    rw [hcast]
    exact habs
  linarith

theorem hsvToRGB_v_roundtrip (h s v : ℚ) (hs0 : 0 ≤ s) (hs1 : s ≤ 1)
    (hv0 : 0 ≤ v) (hh0 : 0 ≤ h) :
    |(rgbToHSV (hsvToRGB h s v).1 (hsvToRGB h s v).2.1
        (hsvToRGB h s v).2.2).2.2 - v| ≤ 1 / 510 := by
  have hc0 : (0 : ℚ) ≤ v * s := by positivity
  have hcv : v * s ≤ v := by nlinarith
  have hgm := goMod_nonneg_bounds (show (0 : ℚ) ≤ h / 60 by positivity)
    (show (0 : ℚ) < 2 by norm_num)
  have hfac0 : (0 : ℚ) ≤ 1 - |goMod (h / 60) 2 - 1| := by
    have : |goMod (h / 60) 2 - 1| ≤ 1 := by
      rw [abs_le]
      constructor <;> linarith [hgm.1, hgm.2]
    linarith
  have hfac1 : 1 - |goMod (h / 60) 2 - 1| ≤ 1 := by
    have : 0 ≤ |goMod (h / 60) 2 - 1| := abs_nonneg _
    linarith
  have hx0 : (0 : ℚ) ≤ v * s * (1 - |goMod (h / 60) 2 - 1|) := by positivity
  have hxc : v * s * (1 - |goMod (h / 60) 2 - 1|) ≤ v * s := by nlinarith
  have hm0 : (0 : ℚ) ≤ v - v * s := by linarith
  have htop : v * s + (v - v * s) = v := by ring
  have hxtop : v * s * (1 - |goMod (h / 60) 2 - 1|) + (v - v * s) ≤ v := by linarith
  have hxnn : (0 : ℚ) ≤ v * s * (1 - |goMod (h / 60) 2 - 1|) + (v - v * s) := by linarith
  have hmtop : 0 + (v - v * s) ≤ v := by linarith
  have hmnn : (0 : ℚ) ≤ 0 + (v - v * s) := by linarith
  simp only [hsvToRGB]
  by_cases hs60 : h < 60
  · rw [if_pos hs60]
    dsimp only
    rw [rgbToHSV_vcomp, max3a (chanQ_mono hxnn (by linarith)) (chanQ_mono hmnn (by linarith)),
      htop]
    exact chanV_close hv0
  · rw [if_neg hs60]
    by_cases hs120 : h < 120
    · rw [if_pos hs120]
      dsimp only
      rw [rgbToHSV_vcomp, max3b (chanQ_mono hxnn (by linarith)) (chanQ_mono hmnn (by linarith)),
        htop]
      exact chanV_close hv0
    · rw [if_neg hs120]
      by_cases hs180 : h < 180
      · rw [if_pos hs180]
        dsimp only
        rw [rgbToHSV_vcomp, max3b (chanQ_mono hmnn (by linarith)) (chanQ_mono hxnn (by linarith)),
          htop]
        exact chanV_close hv0
      · rw [if_neg hs180]
        by_cases hs240 : h < 240
        · rw [if_pos hs240]
          dsimp only
          rw [rgbToHSV_vcomp, max3c (chanQ_mono hmnn (by linarith)) (chanQ_mono hxnn (by linarith)),
            htop]
          exact chanV_close hv0
        · rw [if_neg hs240]
          by_cases hs300 : h < 300
          · rw [if_pos hs300]
            dsimp only
            rw [rgbToHSV_vcomp, max3c (chanQ_mono hxnn (by linarith)) (chanQ_mono hmnn (by linarith)),
              htop]
            exact chanV_close hv0
          · rw [if_neg hs300]
            dsimp only
            rw [rgbToHSV_vcomp, max3a (chanQ_mono hmnn (by linarith)) (chanQ_mono hxnn (by linarith)),
              htop]
            exact chanV_close hv0

/-- C9 counterexample: the round-trip is NOT within rounding tolerance
for all s, v in (0,1): at h = 0, s = 1/2, v = 9/2550 the quantized color
is (1,0,0), whose recovered saturation is 1 — an error of 1/2, far
beyond the 8-bit quantization step 1/255 ("rounding tolerance"). -/
theorem c9_counterexample :
    (0 : ℚ) ≤ 0 ∧ (0 : ℚ) < 360 ∧ (0 : ℚ) < 1 / 2 ∧ (1 / 2 : ℚ) < 1 ∧
    (0 : ℚ) < 9 / 2550 ∧ (9 / 2550 : ℚ) < 1 ∧
    hsvToRGB 0 (1 / 2) (9 / 2550) = (1, 0, 0) ∧
    (rgbToHSV (hsvToRGB 0 (1 / 2) (9 / 2550)).1
        (hsvToRGB 0 (1 / 2) (9 / 2550)).2.1
        (hsvToRGB 0 (1 / 2) (9 / 2550)).2.2).2.1 = 1 ∧
    ¬(|(1 : ℚ) - 1 / 2| ≤ 1 / 255) := by
  refine ⟨by norm_num, by norm_num, by norm_num, by norm_num, by norm_num,
    by norm_num, ?_, ?_, ?_⟩
  · with_unfolding_all decide
  · with_unfolding_all decide
  · rw [abs_le]
    push_neg
    intro _
    norm_num

/-- C9 amended: (a) the v component round-trips within rounding
tolerance — |v′ − v| ≤ 1/510 — for all s, v ∈ (0,1) and h ∈ [0,360)
(the s and hue components need not, see the counterexample); (b) for
every color whose computed hue is exactly one of the six sector
boundaries 0, 60, 120, 180, 240, 300, `hsvToRGB` inverts `rgbToHSV`
exactly. -/
theorem c9_hsv_roundtrip_amended :
    (∀ h s v : ℚ, 0 < s → s < 1 → 0 < v → v < 1 → 0 ≤ h → h < 360 →
      |(rgbToHSV (hsvToRGB h s v).1 (hsvToRGB h s v).2.1
          (hsvToRGB h s v).2.2).2.2 - v| ≤ 1 / 510) ∧
    (∀ r g b : ℕ,
      ((rgbToHSV r g b).1 = 0 ∨ (rgbToHSV r g b).1 = 60 ∨
        (rgbToHSV r g b).1 = 120 ∨ (rgbToHSV r g b).1 = 180 ∨
        (rgbToHSV r g b).1 = 240 ∨ (rgbToHSV r g b).1 = 300) →
      hsvToRGB (rgbToHSV r g b).1 (rgbToHSV r g b).2.1 (rgbToHSV r g b).2.2 =
        (r, g, b)) :=
  ⟨fun h s v hs0 hs1 hv0 _ hh0 _ =>
    hsvToRGB_v_roundtrip h s v hs0.le hs1.le hv0.le hh0,
   hsv_boundary_inversion⟩

/-- Witness for C9 amended: the v bound at (90, 1/2, 1/2), and exact
inversion of the color (10, 20, 20), whose hue is the boundary 180. -/
theorem c9_hsv_roundtrip_amended_witness :
    |(rgbToHSV (hsvToRGB 90 (1 / 2) (1 / 2)).1 (hsvToRGB 90 (1 / 2) (1 / 2)).2.1
        (hsvToRGB 90 (1 / 2) (1 / 2)).2.2).2.2 - 1 / 2| ≤ 1 / 510 ∧
    hsvToRGB (rgbToHSV 10 20 20).1 (rgbToHSV 10 20 20).2.1
        (rgbToHSV 10 20 20).2.2 = (10, 20, 20) :=
  ⟨c9_hsv_roundtrip_amended.1 90 (1 / 2) (1 / 2) (by norm_num) (by norm_num)
      (by norm_num) (by norm_num) (by norm_num) (by norm_num),
   c9_hsv_roundtrip_amended.2 10 20 20 (by with_unfolding_all decide)⟩

end Animoji